import Mathlib

/-!
Verification of the ingestion/normalization pipeline of `src/app.py`
(function `load_data`).  The Python function is shallowly embedded:
bytes are `List Nat`, decoded text is `List Char`, lines and cells are
`String`, data-frame cells are the inductive `Value`, and every fallible
step returns `Except LoadError`.  The surrounding `try/except` of
`load_data` is the projection `Except → Option` (`none` models the
`return None` taken in the `except` branch and on the early header
failure).
-/

/-- Cell value of the embedded data frame: a raw string cell, a parsed
date-time (as a Nat ordinal, monotone in the calendar order), a parsed
numeric value (an exact decimal `m / 10^e`, kept unnormalized), or the
missing marker (pandas `NaN`/`NaT`). -/
inductive Value where
  | str (s : String)
  | dt (t : Nat)
  | num (m : Int) (e : Nat)
  | na
  deriving DecidableEq

/-- Data frame: column names plus rows of cells. -/
structure Frame where
  columns : List String
  rows : List (List Value)
  deriving DecidableEq

/-- Errors of the embedded pipeline.  In the Python source each of these
is an exception caught by the outer `except` (or, for the header, an
explicit early `return None`). -/
inductive LoadError where
  | headerNotFound
  | emptyData
  | tooManyFields
  | missingDateColumn
  | duplicateColumn
  deriving DecidableEq

/-- Boolean test that a list starts with the given pattern. -/
def startsWithL : List Char → List Char → Bool
  | [], _ => true
  | _ :: _, [] => false
  | a :: as, b :: bs => a == b && startsWithL as bs

/-- Boolean substring containment on char lists. -/
def containsSub (needle : List Char) : List Char → Bool
  | [] => needle.isEmpty
  | c :: rest => startsWithL needle (c :: rest) || containsSub needle rest

/-- Python's `needle in hay` substring test on strings. -/
def substr (needle hay : String) : Bool :=
  containsSub needle.toList hay.toList

/-- Python `str.isspace` characters (ASCII range). -/
def isSpacePy (c : Char) : Bool :=
  c == ' ' || c == '\t' || c == '\n' || c == '\r' ||
    c == Char.ofNat 11 || c == Char.ofNat 12

/-- Python `str.strip()` on a char list: drop leading and trailing
whitespace. -/
def pyStripL (cs : List Char) : List Char :=
  ((cs.dropWhile isSpacePy).reverse.dropWhile isSpacePy).reverse

/-- Python `str.strip()`. -/
def pyStrip (s : String) : String :=
  String.mk (pyStripL s.toList)

/-- Split a char list on a separator character; `"a\nb"` style split
keeping empty pieces (`splitOnChar '.' "a..b" = ["a", "", "b"]`). -/
def splitOnChar (sep : Char) : List Char → List (List Char)
  | [] => [[]]
  | c :: rest =>
    let ps := splitOnChar sep rest
    if c == sep then [] :: ps
    else
      match ps with
      | p :: ps' => (c :: p) :: ps'
      | [] => [[c]]

/-- The Unicode replacement character U+FFFD. -/
def replChar : Char := Char.ofNat 0xFFFD

/-- Continuation-byte test for UTF-8. -/
def isCont (b : Nat) : Bool := 0x80 ≤ b && b ≤ 0xBF

/-- Fuel-driven UTF-8 decoder with `errors='replace'` semantics
(CPython: each maximal subpart of an ill-formed sequence becomes one
U+FFFD; valid sequences decode to their scalar value).  The fuel is the
length of the byte list, so the recursion is structural. -/
def utf8Aux : Nat → List Nat → List Char
  | 0, _ => []
  | _, [] => []
  | fuel + 1, b :: rest =>
    if b ≤ 0x7F then Char.ofNat b :: utf8Aux fuel rest
    else if 0xC2 ≤ b && b ≤ 0xDF then
      match rest with
      | b2 :: rest2 =>
        if isCont b2 then
          Char.ofNat ((b - 0xC0) * 0x40 + (b2 - 0x80)) :: utf8Aux fuel rest2
        else replChar :: utf8Aux fuel rest
      | [] => [replChar]
    else if 0xE0 ≤ b && b ≤ 0xEF then
      let lo2 := if b == 0xE0 then 0xA0 else 0x80
      let hi2 := if b == 0xED then 0x9F else 0xBF
      match rest with
      | b2 :: rest2 =>
        if lo2 ≤ b2 && b2 ≤ hi2 then
          match rest2 with
          | b3 :: rest3 =>
            if isCont b3 then
              Char.ofNat ((b - 0xE0) * 0x1000 + (b2 - 0x80) * 0x40 + (b3 - 0x80))
                :: utf8Aux fuel rest3
            else replChar :: utf8Aux fuel rest2
          | [] => [replChar]
        else replChar :: utf8Aux fuel rest
      | [] => [replChar]
    else if 0xF0 ≤ b && b ≤ 0xF4 then
      let lo2 := if b == 0xF0 then 0x90 else 0x80
      let hi2 := if b == 0xF4 then 0x8F else 0xBF
      match rest with
      | b2 :: rest2 =>
        if lo2 ≤ b2 && b2 ≤ hi2 then
          match rest2 with
          | b3 :: rest3 =>
            if isCont b3 then
              match rest3 with
              | b4 :: rest4 =>
                if isCont b4 then
                  Char.ofNat ((b - 0xF0) * 0x40000 + (b2 - 0x80) * 0x1000 +
                      (b3 - 0x80) * 0x40 + (b4 - 0x80)) :: utf8Aux fuel rest4
                else replChar :: utf8Aux fuel rest3
              | [] => [replChar]
            else replChar :: utf8Aux fuel rest2
          | [] => [replChar]
        else replChar :: utf8Aux fuel rest
      | [] => [replChar]
    else replChar :: utf8Aux fuel rest

/-- Embedding of `uploaded_file.getvalue().decode("utf-8",
errors='replace')` (line 26 of `src/app.py`): total, never raises. -/
def utf8DecodeReplace (bs : List Nat) : List Char :=
  utf8Aux bs.length bs

/-- Embedding of `io.StringIO(content); buffer.readlines()` (lines
27-28): split the decoded text on newlines; a trailing newline does not
produce a final empty line. -/
def pyReadLines (cs : List Char) : List String :=
  let ps := splitOnChar '\n' cs
  let ps' := if ps.getLast? = some [] then ps.dropLast else ps
  ps'.map fun l => String.mk l

/-- Header test of lines 34-35 of `src/app.py`:
`"Date and time" in line or "Hm0" in line`. -/
def isHeaderLine (l : String) : Bool :=
  substr "Date and time" l || substr "Hm0" l

/-- Embedding of the header scan of lines 30-42: first index whose line
matches `isHeaderLine`; `none` models `found_header = False`
(`return None`).  The scan runs over ALL lines of the file. -/
def findHeaderIdx : List String → Option Nat
  | [] => none
  | l :: ls => if isHeaderLine l then some 0 else (findHeaderIdx ls).map (· + 1)

/-- Tab split of one line, as `pd.read_csv(..., sep='\t')` does per
line (quoting is not modelled; no input in scope contains quotes). -/
def pySplitTab (l : String) : List String :=
  (splitOnChar '\t' l.toList).map fun cs => String.mk cs

/-- Pad a row on the right with missing values up to the header arity
(pandas pads short rows with NaN). -/
def padRow (n : Nat) (r : List Value) : List Value :=
  r ++ List.replicate (n - r.length) Value.na

/-- Embedding of `pd.read_csv(buffer, sep='\t', header=k,
engine='python')` (line 49): blank lines are skipped before the header
offset is applied (pandas `skip_blank_lines`), the k-th remaining line
is the header, the rest are data rows; rows longer than the header are
a parse error (pandas `ParserError`; the promotion of a uniformly
one-longer table to an index column is not modelled — no claim depends
on it), shorter rows are padded with missing values. -/
def readCsvTab (lines : List String) (k : Nat) : Except LoadError Frame :=
  let nb := lines.filter fun l => l ≠ ""
  match nb.drop k with
  | [] => .error .emptyData
  | h :: dataLines =>
    let cols := pySplitTab h
    let rows := dataLines.map fun l => (pySplitTab l).map Value.str
    if rows.all fun r => r.length ≤ cols.length then
      .ok ⟨cols, rows.map (padRow cols.length)⟩
    else .error .tooManyFields

/-- Embedding of `str(c).strip()` applied to each column name (line
52). -/
def canonName (c : String) : String := pyStrip c

/-- Canonicalize all column names of a frame (line 52). -/
def canonFrame (f : Frame) : Frame :=
  ⟨f.columns.map canonName, f.rows⟩

/-- Embedding of the renaming rules of lines 56-63 of `src/app.py`:

  if "Date" in col: 'Date'
  elif "Hm0" in col and "Swell" not in col and "Wind" not in col: 'Hm0'
  elif "Peak Direction" in col and "Swell" not in col: 'Dir_Pic'
  elif "Peak Period" in col and "Swell" not in col: 'Tp'
  else unchanged. -/
def renameCol (c : String) : String :=
  if substr "Date" c then "Date"
  else if substr "Hm0" c && !substr "Swell" c && !substr "Wind" c then "Hm0"
  else if substr "Peak Direction" c && !substr "Swell" c then "Dir_Pic"
  else if substr "Peak Period" c && !substr "Swell" c then "Tp"
  else c

/-- Apply the renaming map to all columns (`df.rename`, line 63). -/
def renameFrame (f : Frame) : Frame :=
  ⟨f.columns.map renameCol, f.rows⟩

/-- Value of a single decimal digit. -/
def digit? (c : Char) : Option Nat :=
  if '0' ≤ c ∧ c ≤ '9' then some (c.toNat - 48) else none

/-- Value of a nonempty all-digit char list. -/
def digitsVal : List Char → Option Nat
  | [] => none
  | [c] => digit? c
  | c :: rest => do
    pure ((← digit? c) * 10 ^ rest.length + (← digitsVal rest))

/-- Range-checked encoding of a calendar date-time as a Nat ordinal,
monotone in lexicographic (year, month, day, hour, minute, second)
order. -/
def mkStamp (y mo dy h mi s : Nat) : Option Nat :=
  if 1 ≤ mo ∧ mo ≤ 12 ∧ 1 ≤ dy ∧ dy ≤ 31 ∧ h < 24 ∧ mi < 60 ∧ s < 60 then
    some (((((y * 12 + (mo - 1)) * 31 + (dy - 1)) * 24 + h) * 60 + mi) * 60 + s)
  else none

/-- Two-digit number. -/
def num2? (a b : Char) : Option Nat := do
  pure ((← digit? a) * 10 + (← digit? b))

/-- Four-digit number. -/
def num4? (a b c d : Char) : Option Nat := do
  pure (((← digit? a) * 10 + (← digit? b)) * 100 + ((← digit? c) * 10 + (← digit? d)))

/-- Embedding of `pd.to_datetime(cell, errors='coerce')` (line 71),
restricted to the ISO-style timestamps `YYYY-MM-DD HH:MM` and
`YYYY-MM-DD HH:MM:SS` of this file family; anything else (e.g. the
stray `"units"` row) yields `none`, which pandas renders as `NaT`. -/
def toDatetime? (s : String) : Option Nat :=
  match pyStripL s.toList with
  | [a, b, c, d, '-', e, f, '-', g, h, ' ', i, j, ':', k, l] => do
    mkStamp (← num4? a b c d) (← num2? e f) (← num2? g h) (← num2? i j) (← num2? k l) 0
  | [a, b, c, d, '-', e, f, '-', g, h, ' ', i, j, ':', k, l, ':', m, n] => do
    mkStamp (← num4? a b c d) (← num2? e f) (← num2? g h) (← num2? i j) (← num2? k l)
      (← num2? m n)
  | _ => none

/-- Embedding of float parsing under `pd.to_numeric(cell,
errors='coerce')` (line 78), restricted to plain signed decimal
literals (optional sign, digits, optional fractional digits); anything
else yields `none`, which pandas renders as `NaN`.  The result is the
exact decimal `mantissa / 10^exponent`. -/
def parseNum (s : String) : Option (Int × Nat) :=
  let cs := pyStripL s.toList
  let signed : Bool × List Char :=
    match cs with
    | '-' :: r => (true, r)
    | '+' :: r => (false, r)
    | r => (false, r)
  let body := signed.2
  let mag : Option (Nat × Nat) :=
    match splitOnChar '.' body with
    | [ip] => (digitsVal ip).map fun n => (n, 0)
    | [ip, fp] => do
      let n ← digitsVal ip
      let f ← digitsVal fp
      pure (n * 10 ^ fp.length + f, fp.length)
    | _ => none
  mag.map fun p => (if signed.1 then -(p.1 : Int) else (p.1 : Int), p.2)

/-- Cell at position `i` of a row; out of range is the missing value
(matching a padded frame). -/
def getCell : Nat → List Value → Value
  | _, [] => Value.na
  | 0, v :: _ => v
  | n + 1, _ :: r => getCell n r

/-- Replace the cell at position `i` by the image under `g`; out of
range is a no-op. -/
def setCell : Nat → (Value → Value) → List Value → List Value
  | _, _, [] => []
  | 0, g, v :: r => g v :: r
  | n + 1, g, v :: r => v :: setCell n g r

/-- Per-cell effect of `pd.to_datetime(..., errors='coerce')`: a string
cell parses or becomes missing; a missing cell stays missing. -/
def dtCell : Value → Value
  | Value.str s =>
    match toDatetime? s with
    | some t => Value.dt t
    | none => Value.na
  | Value.dt t => Value.dt t
  | _ => Value.na

/-- Per-cell effect of `pd.to_numeric(..., errors='coerce')`: a string
cell parses or becomes missing; a missing cell stays missing. -/
def numCell : Value → Value
  | Value.str s =>
    match parseNum s with
    | some p => Value.num p.1 p.2
    | none => Value.na
  | Value.num m e => Value.num m e
  | _ => Value.na

/-- True on a parsed date-time cell. -/
def Value.isDt : Value → Bool
  | Value.dt _ => true
  | _ => false

/-- The numeric columns coerced by the loop of lines 76-78. -/
def numericCols : List String := ["Hm0", "Tp", "Dir_Pic"]

/-- Embedding of the loop `for col in ['Hm0', 'Tp', 'Dir_Pic']: if col
in df.columns: df[col] = pd.to_numeric(df[col], errors='coerce')`
(lines 76-78).  A column name occurring twice (possible after the
renaming step) makes `df[col]` a two-column frame on which
`pd.to_numeric` raises — modelled as `duplicateColumn`. -/
def coerceNumerics : List String → List String → List (List Value) →
    Except LoadError (List (List Value))
  | [], _, rows => .ok rows
  | c :: cs, cols, rows =>
    if cols.count c = 0 then coerceNumerics cs cols rows
    else if cols.count c = 1 then
      coerceNumerics cs cols (rows.map (setCell (cols.indexOf c) numCell))
    else .error .duplicateColumn

/-- Embedding of lines 70-80 of `src/app.py`: `df['Date'] =
pd.to_datetime(df['Date'], errors='coerce')` (raising `KeyError` when
no column is named `Date` and a pandas error when several are, both
caught by the outer `except`), then `df.dropna(subset=['Date'])`, then
the numeric coercion loop, then `return df`.  No sorting and no
emptiness check are performed. -/
def coerceFrame (f : Frame) : Except LoadError Frame :=
  if f.columns.count "Date" = 0 then .error .missingDateColumn
  else if f.columns.count "Date" = 1 then
    match coerceNumerics numericCols f.columns
        ((f.rows.map (setCell (f.columns.indexOf "Date") dtCell)).filter
          fun r => (getCell (f.columns.indexOf "Date") r).isDt) with
    | .error e => .error e
    | .ok rows3 => .ok ⟨f.columns, rows3⟩
  else .error .duplicateColumn

/-- Embedding of the body of the `try` block of `load_data` (lines
23-80 of `src/app.py`), as a composition of the stages above. -/
def load_dataE (bytes : List Nat) : Except LoadError Frame :=
  let lines := pyReadLines (utf8DecodeReplace bytes)
  match findHeaderIdx lines with
  | none => .error .headerNotFound
  | some k =>
    match readCsvTab lines k with
    | .error e => .error e
    | .ok raw => coerceFrame (renameFrame (canonFrame raw))

/-- Embedding of `load_data` (lines 22-84): the `try/except` wrapper
turns every failure, and the early header `return None`, into `none`. -/
def load_data (bytes : List Nat) : Option Frame :=
  match load_dataE bytes with
  | .ok f => some f
  | .error _ => none

/-- The pipeline prefix up to and including the renaming stage (lines
23-63 of `src/app.py`): the table `load_data` has built just before the
type-coercion block, i.e. the read, canonicalized and renamed frame of
the upload. -/
def renamedTable (bytes : List Nat) : Except LoadError Frame :=
  let lines := pyReadLines (utf8DecodeReplace bytes)
  match findHeaderIdx lines with
  | none => .error .headerNotFound
  | some k =>
    match readCsvTab lines k with
    | .error e => .error e
    | .ok raw => .ok (renameFrame (canonFrame raw))

/-- ASCII encoding of a string as a byte list (for concrete inputs). -/
def asciiBytes (s : String) : List Nat :=
  s.toList.map Char.toNat

deriving instance DecidableEq for Except

/-! Concrete inputs used by counterexamples and witnesses. -/

/-- Tab-separated upload whose two data rows are in reverse
chronological order. -/
def outOfOrderFile : List Nat :=
  asciiBytes "Date and time\tHm0\n2023-01-02 00:00\t1.0\n2023-01-01 00:00\t2.0\n"

/-- Upload with a generic and a wind-qualified peak-direction column. -/
def twoDirectionsFile : List Nat :=
  asciiBytes
    "Date and time\tHm0\tPeak Direction\tWind Peak Direction\n2023-01-01 00:00\t1.5\t270\t280\n"

/-- Upload whose only data row has the stray text `units` in the
timestamp cell, so no row survives timestamp parsing. -/
def allUnitsFile : List Nat :=
  asciiBytes "Date and time\tHm0\nunits\tm\n"

/-- Space-separated (non-tab) upload. -/
def spaceSeparatedFile : List Nat :=
  asciiBytes "Date and time Hm0\n2023-01-01 00:00 1.5\n"

/-- Well-formed single-row upload. -/
def simpleFile : List Nat :=
  asciiBytes "Date and time\tHm0\n2023-01-01 00:00\t1.5\n"

/-- The renamed table the pipeline builds from the
reverse-chronological upload (the value of
`renamedTable outOfOrderFile`). -/
def outOfOrderRenamed : Frame :=
  ⟨["Date", "Hm0"],
    [[Value.str "2023-01-02 00:00", Value.str "1.0"],
      [Value.str "2023-01-01 00:00", Value.str "2.0"]]⟩

/-- The dataset produced from the reverse-chronological upload. -/
def outOfOrderResult : Frame :=
  ⟨["Date", "Hm0"],
    [[Value.dt 65020924800, Value.num 10 1], [Value.dt 65020838400, Value.num 20 1]]⟩

/-- Claim C1, counterexample: on `outOfOrderFile` the pipeline succeeds
and returns the rows in their original (reverse-chronological) order:
the adjacent timestamps 65020924800 and 65020838400 violate
`timestamp[i] <= timestamp[i+1]`, so the result is not sorted ascending
by timestamp. -/
theorem c1_counterexample :
    load_dataE outOfOrderFile =
      .ok ⟨["Date", "Hm0"],
        [[Value.dt 65020924800, Value.num 10 1], [Value.dt 65020838400, Value.num 20 1]]⟩ ∧
    ¬ (65020924800 ≤ 65020838400) := by
  decide

/-- Claim C2, counterexample: the byte `0xFF` is undecodable in UTF-8
and the decoded text contains no family marker, yet the decode stage
succeeds (producing U+FFFD) instead of failing with a `DecodeError`;
the pipeline error on this input is the later header failure. -/
theorem c2_counterexample :
    utf8DecodeReplace [255] = [Char.ofNat 0xFFFD] ∧
    load_dataE [255] = .error LoadError.headerNotFound := by
  decide

/-- Claim C4, counterexample: canonicalization of the raw column name
`"Significant Wave Height Hm0 [9]"` leaves it unchanged — the bracketed
annotation is NOT removed, so the canonical name still contains a `[`
character. -/
theorem c4_counterexample :
    canonName "Significant Wave Height Hm0 [9]" = "Significant Wave Height Hm0 [9]" ∧
    '[' ∈ (canonName "Significant Wave Height Hm0 [9]").toList := by
  decide

/-- Claim C5, counterexample: the wind-qualified column
`"Wind Peak Direction"` is ALSO renamed to the logical field `Dir_Pic`
(the exclusion list of the direction rule contains only `"Swell"`), so
it is not retained as a pass-through column; with both direction
columns present the pipeline then fails on the duplicated column. -/
theorem c5_counterexample :
    renameCol "Wind Peak Direction" = "Dir_Pic" ∧
    renameCol "Peak Direction" = "Dir_Pic" ∧
    load_dataE twoDirectionsFile = .error LoadError.duplicateColumn := by
  decide

/-- Claim C6, counterexample: on `allUnitsFile` every row fails
timestamp parsing, yet `load_data` returns an empty dataset as a
successful (non-`None`) result instead of failing with
`TypeCoercionError`. -/
theorem c6_counterexample :
    load_data allUnitsFile = some ⟨["Date", "Hm0"], []⟩ := by
  decide

/-- Claim C7, counterexample: a space-separated (non-tab) header line
is split into a single cell, and the whole pipeline parses the
space-separated upload into a one-column dataset — there is no
fallback delimiter detection. -/
theorem c7_counterexample :
    pySplitTab "Date and time Hm0" = ["Date and time Hm0"] ∧
    load_dataE spaceSeparatedFile = .ok ⟨["Date"], []⟩ := by
  decide

/-! Helper lemmas. -/

/-- On all-ASCII input the decoder is the identity embedding of bytes
into characters. -/
theorem utf8Aux_ascii : ∀ (bs : List Nat) (fuel : Nat), bs.length ≤ fuel →
    (∀ b ∈ bs, b < 128) → utf8Aux fuel bs = bs.map Char.ofNat := by
  intro bs
  induction bs with
  | nil => intro fuel _ _; cases fuel <;> simp [utf8Aux]
  | cons b rest ih =>
    intro fuel hlen hall
    cases fuel with
    | zero => simp at hlen
    | succ f =>
      have hb : b ≤ 0x7F := by
        have := hall b (by simp)
        omega
      simp only [utf8Aux, if_pos hb, List.map_cons, List.cons.injEq, true_and]
      exact ih f (by simpa using hlen) fun x hx => hall x (by simp [hx])

/-- Splitting on a character absent from the list yields that list as
the single piece. -/
theorem splitOnChar_of_not_mem (sep : Char) :
    ∀ cs : List Char, (∀ c ∈ cs, c ≠ sep) → splitOnChar sep cs = [cs] := by
  intro cs
  induction cs with
  | nil => intro _; rfl
  | cons c rest ih =>
    intro h
    have hc : (c == sep) = false := by
      simpa using h c (by simp)
    simp [splitOnChar, hc, ih fun x hx => h x (by simp [hx])]

/-- Out-of-place cell updates do not change other cells. -/
theorem getCell_setCell_ne (g : Value → Value) :
    ∀ (r : List Value) (i j : Nat), i ≠ j → getCell i (setCell j g r) = getCell i r := by
  intro r
  induction r with
  | nil => intro i j _; simp [setCell]
  | cons v t ih =>
    intro i j hij
    cases i with
    | zero =>
      cases j with
      | zero => exact absurd rfl hij
      | succ m => simp [setCell, getCell]
    | succ n =>
      cases j with
      | zero => simp [setCell, getCell]
      | succ m =>
        simp only [setCell, getCell]
        exact ih n m fun h => hij (by rw [h])

/-- Reading back an updated cell applies the update, for updates fixing
the missing value (so the out-of-range case agrees). -/
theorem getCell_setCell_self (g : Value → Value) (hg : g Value.na = Value.na) :
    ∀ (i : Nat) (r : List Value), getCell i (setCell i g r) = g (getCell i r) := by
  intro i
  induction i with
  | zero => intro r; cases r <;> simp [getCell, setCell, hg]
  | succ n ih =>
    intro r
    cases r with
    | nil => simp [getCell, setCell, hg]
    | cons v t => simpa [getCell, setCell] using ih t

/-- The numeric-coercion loop never fails on duplicate-free columns and
does nothing to an empty row list. -/
theorem coerceNumerics_nil_rows : ∀ (cs : List String) (cols : List String),
    (∀ c ∈ cs, cols.count c ≤ 1) → coerceNumerics cs cols [] = .ok [] := by
  intro cs
  induction cs with
  | nil => intro cols _; rfl
  | cons c cs ih =>
    intro cols h
    have hc : cols.count c = 0 ∨ cols.count c = 1 := by
      have := h c (by simp)
      omega
    have hrest : ∀ x ∈ cs, cols.count x ≤ 1 := fun x hx => h x (by simp [hx])
    rcases hc with h0 | h1
    · simp only [coerceNumerics, h0, if_pos rfl]
      exact ih cols hrest
    · simp only [coerceNumerics, h1]
      norm_num
      exact ih cols hrest

/-- Claim C2 (amended): the decode stage tries exactly one encoding,
UTF-8 with `errors='replace'`: it is a total function that never
fails, applies no marker heuristic, and on ASCII input reproduces the
bytes as characters; there is no `DecodeError` in the pipeline. -/
theorem c2_decoder_is_utf8_replace (bs : List Nat) (h : ∀ b ∈ bs, b < 128) :
    utf8DecodeReplace bs = bs.map Char.ofNat :=
  utf8Aux_ascii bs bs.length le_rfl h

/-- Witness for `c2_decoder_is_utf8_replace` at the bytes of "Hm0". -/
theorem c2_decoder_is_utf8_replace_witness :
    utf8DecodeReplace [72, 109, 48] = [Char.ofNat 72, Char.ofNat 109, Char.ofNat 48] :=
  c2_decoder_is_utf8_replace [72, 109, 48] (by decide)

/-- Claim C7 (amended): cell splitting is tab-only — there is no
fallback delimiter detection; any line without a tab character becomes
a single cell. -/
theorem c7_tab_only_split (l : String) (h : ∀ c ∈ l.toList, c ≠ '\t') :
    pySplitTab l = [l] := by
  unfold pySplitTab
  rw [splitOnChar_of_not_mem '\t' l.toList h]
  simp [String.mk]

/-- Witness for `c7_tab_only_split` at a space-separated header line. -/
theorem c7_tab_only_split_witness :
    pySplitTab "Date and time Hm0" = ["Date and time Hm0"] :=
  c7_tab_only_split "Date and time Hm0" (by decide)

/-- Claim C4 (amended): column-name canonicalization only strips
leading and trailing whitespace; it never removes a bracketed
annotation — the canonical name is the raw name minus whitespace-only
borders, so every `[` of the raw name survives. -/
theorem c4_canon_only_strips (c : String) :
    ∃ pre post, c.toList = pre ++ (canonName c).toList ++ post ∧
      (∀ a ∈ pre, isSpacePy a = true) ∧ (∀ a ∈ post, isSpacePy a = true) := by
  have key : c.toList = c.toList.takeWhile isSpacePy ++ (canonName c).toList ++
      ((c.toList.dropWhile isSpacePy).reverse.takeWhile isSpacePy).reverse := by
    have hts : (canonName c).toList = pyStripL c.toList := rfl
    rw [hts]
    unfold pyStripL
    conv_lhs => rw [← List.takeWhile_append_dropWhile isSpacePy c.toList]
    rw [List.append_assoc]
    congr 1
    rw [← List.reverse_append,
      List.takeWhile_append_dropWhile isSpacePy (c.toList.dropWhile isSpacePy).reverse,
      List.reverse_reverse]
  exact ⟨_, _, key, fun a ha => List.mem_takeWhile_imp ha,
    fun a ha => List.mem_takeWhile_imp (List.mem_reverse.mp ha)⟩

/-- Witness for `c4_canon_only_strips` at a padded bracketed name. -/
theorem c4_canon_only_strips_witness :
    ∃ pre post, (" Hm0 [9] ").toList = pre ++ (canonName " Hm0 [9] ").toList ++ post ∧
      (∀ a ∈ pre, isSpacePy a = true) ∧ (∀ a ∈ post, isSpacePy a = true) :=
  c4_canon_only_strips " Hm0 [9] "

/-- Claim C5 (amended): the direction rule excludes only "Swell": every
column whose name contains "Peak Direction" but not "Swell" (and
matches no earlier rule) is renamed to `Dir_Pic` — including
wind-qualified ones, which are therefore not kept as pass-through
columns (and the pipeline fails on the duplicated name when a
generic direction column is also present). -/
theorem c5_wind_direction_also_renamed (c : String)
    (h1 : substr "Peak Direction" c = true) (h2 : substr "Swell" c = false)
    (h3 : substr "Date" c = false) (h4 : substr "Hm0" c = false) :
    renameCol c = "Dir_Pic" := by
  simp [renameCol, h1, h2, h3, h4]

/-- Witness for `c5_wind_direction_also_renamed` at
"Wind Peak Direction". -/
theorem c5_wind_direction_also_renamed_witness :
    renameCol "Wind Peak Direction" = "Dir_Pic" :=
  c5_wind_direction_also_renamed "Wind Peak Direction"
    (by decide) (by decide) (by decide) (by decide)

/-- The header scan skips any number of non-matching lines and keeps
counting: prepending `n` non-matching lines shifts the found index by
`n`. -/
theorem findHeaderIdx_replicate_append (x : String) (hx : isHeaderLine x = false)
    (ls : List String) :
    ∀ n, findHeaderIdx (List.replicate n x ++ ls) = (findHeaderIdx ls).map (· + n) := by
  intro n
  induction n with
  | zero =>
    cases h : findHeaderIdx ls <;> simp [h]
  | succ n ih =>
    rw [List.replicate_succ, List.cons_append]
    have he : findHeaderIdx (x :: (List.replicate n x ++ ls)) =
        (findHeaderIdx (List.replicate n x ++ ls)).map (· + 1) := by
      simp [findHeaderIdx, hx]
    rw [he, ih, Option.map_map]
    have hcomp : ((· + 1) ∘ (· + n) : Nat → Nat) = (· + (n + 1)) := by
      funext a
      show a + n + 1 = a + (n + 1)
      omega
    rw [hcomp]

/-- Claim C3, counterexample: a header marker occurring only after one
million non-matching lines is still found (at index 1000000): the scan
window is not bounded, so a marker beyond any fixed prefix window still
yields a header position. -/
theorem c3_counterexample :
    findHeaderIdx (List.replicate 1000000 "0.5" ++ ["Date and time\tHm0"]) = some 1000000 ∧
    isHeaderLine "0.5" = false := by
  refine ⟨?_, by decide⟩
  rw [findHeaderIdx_replicate_append "0.5" (by decide) _ 1000000]
  have h : findHeaderIdx ["Date and time\tHm0"] = some 0 := by decide
  rw [h]
  simp

/-- Claim C3 (amended): the header scan runs over ALL decoded lines
with no window bound: it returns the index of the first line containing
one of the marker substrings ("Date and time" or "Hm0"), that index is
within the line count, no earlier line matches, and the scan fails
(hard failure, `None`) exactly when no line of the whole file
matches. -/
theorem c3_header_scan_unbounded (lines : List String) :
    (∀ i, findHeaderIdx lines = some i →
      i < lines.length ∧ isHeaderLine (lines.getD i "") = true ∧
        ∀ j, j < i → isHeaderLine (lines.getD j "") = false) ∧
    (findHeaderIdx lines = none ↔ ∀ l ∈ lines, isHeaderLine l = false) := by
  induction lines with
  | nil =>
    refine ⟨fun i h => by simp [findHeaderIdx] at h, by simp [findHeaderIdx]⟩
  | cons l ls ih =>
    cases hl : isHeaderLine l with
    | true =>
      have he : findHeaderIdx (l :: ls) = some 0 := by
        simp [findHeaderIdx, hl]
      refine ⟨fun i h => ?_, ?_⟩
      · obtain rfl : 0 = i := Option.some.inj (he.symm.trans h)
        exact ⟨by simp, by simpa using hl, fun j hj => absurd hj (by omega)⟩
      · rw [he]
        constructor
        · intro h; cases h
        · intro hall
          exact absurd (hall l (by simp)) (by simp [hl])
    | false =>
      have he : findHeaderIdx (l :: ls) = (findHeaderIdx ls).map (· + 1) := by
        simp [findHeaderIdx, hl]
      refine ⟨fun i h => ?_, ?_⟩
      · rw [he] at h
        cases hfi : findHeaderIdx ls with
        | none => rw [hfi] at h; cases h
        | some i' =>
          rw [hfi] at h
          obtain rfl : i' + 1 = i := Option.some.inj (by simpa using h)
          obtain ⟨hlt, hhead, hbefore⟩ := ih.1 i' hfi
          refine ⟨by simpa using hlt, by simpa using hhead, fun j hj => ?_⟩
          cases j with
          | zero => simpa using hl
          | succ j' => simpa using hbefore j' (by omega)
      · rw [he, Option.map_eq_none', ih.2]
        constructor
        · intro hall l' hl'
          rcases List.mem_cons.mp hl' with rfl | hmem
          · exact hl
          · exact hall l' hmem
        · intro hall l' hl'
          exact hall l' (by simp [hl'])

/-- Witness for `c3_header_scan_unbounded`: a file with no marker line
anywhere makes the scan fail. -/
theorem c3_header_scan_unbounded_witness :
    findHeaderIdx ["buoy export", "station 42"] = none :=
  (c3_header_scan_unbounded ["buoy export", "station 42"]).2.mpr (by decide)

/-- Claim C6 (amended): when every row fails timestamp parsing the
coercion stage does NOT fail: it returns the empty dataset as a
successful result (the source has no emptiness check; only the UI
around `load_data` later reports empty data, after the function has
already returned successfully). -/
theorem c6_empty_is_success (f : Frame)
    (h1 : f.columns.count "Date" = 1)
    (h2 : ∀ c ∈ numericCols, f.columns.count c ≤ 1)
    (h3 : ∀ r ∈ f.rows, (dtCell (getCell (f.columns.indexOf "Date") r)).isDt = false) :
    coerceFrame f = .ok ⟨f.columns, []⟩ := by
  have hfilter : (f.rows.map (setCell (f.columns.indexOf "Date") dtCell)).filter
      (fun r => (getCell (f.columns.indexOf "Date") r).isDt) = [] := by
    rw [List.filter_eq_nil_iff]
    intro a ha
    obtain ⟨r, hr, rfl⟩ := List.mem_map.mp ha
    rw [getCell_setCell_self dtCell rfl]
    simp [h3 r hr]
  rw [coerceFrame, if_neg (by omega), if_pos h1, hfilter,
    coerceNumerics_nil_rows numericCols f.columns h2]

/-- Witness for `c6_empty_is_success` at a one-row frame whose only
timestamp cell is the stray text `units`. -/
theorem c6_empty_is_success_witness :
    coerceFrame ⟨["Date", "Hm0"], [[Value.str "units", Value.str "m"]]⟩ =
      .ok ⟨["Date", "Hm0"], []⟩ :=
  c6_empty_is_success ⟨["Date", "Hm0"], [[Value.str "units", Value.str "m"]]⟩
    (by decide) (by decide) (by decide)

/-- Distinct column names occurring in a column list have distinct
indices. -/
theorem indexOf_ne_of_ne {cols : List String} {c d : String}
    (hc : c ∈ cols) (hd : d ∈ cols) (hne : c ≠ d) :
    cols.indexOf c ≠ cols.indexOf d := by
  intro h
  exact hne ((List.indexOf_inj hc hd).mp h)

/-- The numeric-coercion loop touches no date cell: for column lists in
which `Date` occurs once and the coerced names avoid `Date`, the
sequence of date cells is unchanged. -/
theorem coerceNumerics_preserves_dates :
    ∀ (cs cols : List String) (rows rows' : List (List Value)),
      (∀ c ∈ cs, c ≠ "Date") → cols.count "Date" = 1 →
      coerceNumerics cs cols rows = .ok rows' →
      rows'.map (getCell (cols.indexOf "Date")) = rows.map (getCell (cols.indexOf "Date")) := by
  intro cs
  induction cs with
  | nil =>
    intro cols rows rows' _ _ h
    obtain rfl : rows = rows' := by simpa [coerceNumerics] using h
    rfl
  | cons c cs ih =>
    intro cols rows rows' hne hdate h
    have hcne : c ≠ "Date" := hne c (by simp)
    have hrest : ∀ x ∈ cs, x ≠ "Date" := fun x hx => hne x (by simp [hx])
    rcases h0 : cols.count c with _ | n
    · rw [coerceNumerics, h0, if_pos rfl] at h
      exact ih cols rows rows' hrest hdate h
    · rcases n with _ | n
      · rw [coerceNumerics, h0] at h
        norm_num at h
        have hmemc : c ∈ cols := List.count_pos_iff.mp (by omega)
        have hmemd : "Date" ∈ cols := List.count_pos_iff.mp (by omega)
        have hij : cols.indexOf "Date" ≠ cols.indexOf c :=
          indexOf_ne_of_ne hmemd hmemc (Ne.symm hcne)
        have := ih cols (rows.map (setCell (cols.indexOf c) numCell)) rows' hrest hdate h
        rw [this, List.map_map]
        exact List.map_congr_left fun r _ =>
          getCell_setCell_ne numCell r (cols.indexOf "Date") (cols.indexOf c) hij
      · rw [coerceNumerics, h0] at h
        norm_num at h
        cases h

/-- Success characterization of the type-coercion stage (lines 70-80):
columns are preserved, `Date` occurs exactly once, and the sequence of
date cells of the output is exactly — in the original row order — the
parsed timestamps of the input rows that parse. -/
theorem coerceFrame_dates (f f' : Frame) (h : coerceFrame f = .ok f') :
    f'.columns = f.columns ∧ f.columns.count "Date" = 1 ∧
    f'.rows.map (getCell (f.columns.indexOf "Date")) =
      (f.rows.map fun r => dtCell (getCell (f.columns.indexOf "Date") r)).filter
        Value.isDt := by
  by_cases hc0 : f.columns.count "Date" = 0
  · rw [coerceFrame, if_pos hc0] at h
    cases h
  · by_cases hc : f.columns.count "Date" = 1
    · rw [coerceFrame, if_neg hc0, if_pos hc] at h
      rcases hnum : coerceNumerics numericCols f.columns
          ((f.rows.map (setCell (f.columns.indexOf "Date") dtCell)).filter
            fun r => (getCell (f.columns.indexOf "Date") r).isDt) with e | rows3
      · rw [hnum] at h; cases h
      · rw [hnum] at h
        obtain rfl : Frame.mk f.columns rows3 = f' := by simpa using h
        refine ⟨rfl, hc, ?_⟩
        have hpres := coerceNumerics_preserves_dates numericCols f.columns _ rows3
          (by decide) hc hnum
        rw [hpres]
        rw [List.filter_map, List.map_map, List.filter_map]
        have hself : ∀ r : List Value,
            getCell (f.columns.indexOf "Date") (setCell (f.columns.indexOf "Date") dtCell r) =
              dtCell (getCell (f.columns.indexOf "Date") r) := fun r =>
          getCell_setCell_self dtCell rfl (f.columns.indexOf "Date") r
        rw [List.filter_congr fun r _ => by
          show (getCell (f.columns.indexOf "Date")
              (setCell (f.columns.indexOf "Date") dtCell r)).isDt =
            (dtCell (getCell (f.columns.indexOf "Date") r)).isDt
          rw [hself r]]
        exact List.map_congr_left fun r _ => hself r
    · rw [coerceFrame, if_neg hc0, if_neg hc] at h
      cases h

/-- Every successful `load_data` result is produced by the coercion
stage applied to some renamed frame. -/
theorem load_data_ok_coerce (bs : List Nat) (f : Frame) (h : load_data bs = some f) :
    ∃ g : Frame, coerceFrame g = .ok f := by
  rw [load_data] at h
  rcases he : load_dataE bs with e | g0
  · rw [he] at h; cases h
  · rw [he] at h
    have hg0 : g0 = f := by simpa using h
    rw [← hg0]
    simp only [load_dataE] at he
    revert he
    cases findHeaderIdx (pyReadLines (utf8DecodeReplace bs)) with
    | none => intro he; cases he
    | some k =>
      intro he
      have he' : (match readCsvTab (pyReadLines (utf8DecodeReplace bs)) k with
          | .error e => (.error e : Except LoadError Frame)
          | .ok raw => coerceFrame (renameFrame (canonFrame raw))) = .ok g0 := he
      rcases hrc : readCsvTab (pyReadLines (utf8DecodeReplace bs)) k with e | raw
      · rw [hrc] at he'
        cases he'
      · rw [hrc] at he'
        exact ⟨renameFrame (canonFrame raw), he'⟩

/-- The full pipeline is the renaming prefix followed by the coercion
stage. -/
theorem load_dataE_eq_renamedTable (bs : List Nat) :
    load_dataE bs = match renamedTable bs with
      | .error e => .error e
      | .ok g => coerceFrame g := by
  simp only [load_dataE, renamedTable]
  cases findHeaderIdx (pyReadLines (utf8DecodeReplace bs)) with
  | none => rfl
  | some k =>
    show (match readCsvTab (pyReadLines (utf8DecodeReplace bs)) k with
        | .error e => (.error e : Except LoadError Frame)
        | .ok raw => coerceFrame (renameFrame (canonFrame raw))) =
      match (match readCsvTab (pyReadLines (utf8DecodeReplace bs)) k with
        | .error e => (.error e : Except LoadError Frame)
        | .ok raw => .ok (renameFrame (canonFrame raw))) with
      | .error e => .error e
      | .ok g => coerceFrame g
    cases readCsvTab (pyReadLines (utf8DecodeReplace bs)) k with
    | error e => rfl
    | ok raw => rfl

/-- Claim C1 (amended): the pipeline never sorts: whenever `load_data`
succeeds on an upload, the timestamp sequence of the produced dataset
is exactly — in the original row order — the sequence of successfully
parsed timestamps of the renamed table the pipeline built from that
upload, so an upload whose data rows are out of chronological order
yields an out-of-order dataset. -/
theorem c1_rows_keep_input_order (bs : List Nat) (g f : Frame)
    (hg : renamedTable bs = .ok g) (h : load_data bs = some f) :
    coerceFrame g = .ok f ∧
      f.rows.map (getCell (g.columns.indexOf "Date")) =
        (g.rows.map fun r => dtCell (getCell (g.columns.indexOf "Date") r)).filter
          Value.isDt := by
  have hE : load_dataE bs = .ok f := by
    rw [load_data] at h
    rcases he : load_dataE bs with e | g0
    · rw [he] at h
      simp at h
    · rw [he] at h
      have hg0 : g0 = f := by simpa using h
      rw [hg0]
  have hcf : coerceFrame g = .ok f := by
    rw [load_dataE_eq_renamedTable, hg] at hE
    exact hE
  exact ⟨hcf, (coerceFrame_dates g f hcf).2.2⟩

/-- Witness for `c1_rows_keep_input_order` at the reverse-chronological
upload: the output's timestamp column lists 65020924800 before the
smaller 65020838400, exactly as in the renamed input table. -/
theorem c1_rows_keep_input_order_witness :
    coerceFrame outOfOrderRenamed = .ok outOfOrderResult ∧
      outOfOrderResult.rows.map (getCell (outOfOrderRenamed.columns.indexOf "Date")) =
        (outOfOrderRenamed.rows.map fun r =>
          dtCell (getCell (outOfOrderRenamed.columns.indexOf "Date") r)).filter
          Value.isDt :=
  c1_rows_keep_input_order outOfOrderFile outOfOrderRenamed outOfOrderResult
    (by decide) (by decide)

/-- Claim C8: a successful `load_data` result always carries the
logical timestamp column: the column list of any dataset it returns
contains `Date` (exactly once); an upload whose table has no
date-bearing column can only produce the failure result `none`, never a
dataset lacking timestamps. -/
theorem c8_success_has_date_column (bs : List Nat) (f : Frame)
    (h : load_data bs = some f) : f.columns.count "Date" = 1 := by
  obtain ⟨g, hg⟩ := load_data_ok_coerce bs f h
  obtain ⟨hcols, hcount, _⟩ := coerceFrame_dates g f hg
  rw [hcols]
  exact hcount

/-- Witness for `c8_success_has_date_column` at a well-formed
upload. -/
theorem c8_success_has_date_column_witness :
    (Frame.mk ["Date", "Hm0"] [[Value.dt 65020838400, Value.num 15 1]]).columns.count
      "Date" = 1 :=
  c8_success_has_date_column simpleFile
    ⟨["Date", "Hm0"], [[Value.dt 65020838400, Value.num 15 1]]⟩ (by decide)

/-- Claim C9: timestamp totality and retention: every row of a
successfully produced dataset has a parsed (non-missing) timestamp, and
the coercion stage keeps exactly the rows whose timestamp cell parses
(rows that fail tolerant date parsing, such as a stray `units` row, are
dropped; all parseable rows are retained). -/
theorem c9_timestamp_totality :
    (∀ (bs : List Nat) (f : Frame), load_data bs = some f →
      ∀ r ∈ f.rows, (getCell (f.columns.indexOf "Date") r).isDt = true) ∧
    (∀ (g f' : Frame), coerceFrame g = .ok f' →
      f'.rows.length =
        ((g.rows.map fun r => dtCell (getCell (g.columns.indexOf "Date") r)).filter
          Value.isDt).length) := by
  constructor
  · intro bs f h r hr
    obtain ⟨g, hg⟩ := load_data_ok_coerce bs f h
    obtain ⟨hcols, _, hdates⟩ := coerceFrame_dates g f hg
    have hmem : getCell (g.columns.indexOf "Date") r ∈
        (g.rows.map fun x => dtCell (getCell (g.columns.indexOf "Date") x)).filter
          Value.isDt := by
      rw [← hdates]
      exact List.mem_map.mpr ⟨r, hr, rfl⟩
    have hd := (List.mem_filter.mp hmem).2
    rw [hcols]
    exact hd
  · intro g f' hg
    obtain ⟨_, _, hdates⟩ := coerceFrame_dates g f' hg
    calc f'.rows.length
        = (f'.rows.map (getCell (g.columns.indexOf "Date"))).length := by simp
      _ = _ := by rw [hdates]

/-- Witness for `c9_timestamp_totality` at a well-formed upload. -/
theorem c9_timestamp_totality_witness :
    (getCell ((Frame.mk ["Date", "Hm0"]
        [[Value.dt 65020838400, Value.num 15 1]]).columns.indexOf "Date")
      [Value.dt 65020838400, Value.num 15 1]).isDt = true :=
  c9_timestamp_totality.1 simpleFile
    ⟨["Date", "Hm0"], [[Value.dt 65020838400, Value.num 15 1]]⟩ (by decide)
    [Value.dt 65020838400, Value.num 15 1] (by decide)

/-- Claim C10: `load_data` is total and never propagates an error: for
every byte buffer it returns either a dataset (when the embedded
try-body succeeds) or the explicit no-result value `none` (when the
try-body fails with any pipeline error, or the header scan takes the
early `return None`). -/
theorem c10_load_data_total (bs : List Nat) :
    (∃ f, load_dataE bs = .ok f ∧ load_data bs = some f) ∨
    (∃ e, load_dataE bs = .error e ∧ load_data bs = none) := by
  cases he : load_dataE bs with
  | ok f => exact Or.inl ⟨f, rfl, by rw [load_data, he]⟩
  | error e => exact Or.inr ⟨e, rfl, by rw [load_data, he]⟩
